import Mathlib

/-!
Shallow embedding of the SHOPIFY-FIKEN order-to-ledger reconciliation code.

Namespace Migration embeds scripts/migrate_shopify_to_fiken_external_sales.js
(the external-sales worker: buildSaleLines, calculateTotals, computeFeeAmount,
getOrCreateCustomer, findSaleByNumber, migrateOrder).  Monetary values are
modelled as exact rationals (JS numbers idealised), decimal order fields are
pre-parsed rationals, and absent JSON fields are Option values.  The remote
Fiken ledger is modelled as explicit state (sales, contacts, payments) threaded
through the worker, together with a trace of the remote operations issued.

Namespace Fiken embeds the FikenAPI client from src/fiken.js (the generic
request method); the remote side is a list of outcomes, one per HTTP attempt
the client would make.

Namespace Server embeds the webhook endpoint from src/server.js
(verifyShopifySignature, extractOrderId, the orders-paid handler); the
HMAC-SHA256-base64 primitive is an abstract function parameter.
-/

namespace Migration

/-- JS Math.round: round to the nearest integer, ties toward positive
infinity. -/
def jsRound (x : ℚ) : ℤ := ⌊x + 1/2⌋

/-- JS falsy-aware fallback for string fields: the empty string falls through
to the default (translation of the JS pattern a || d for strings). -/
def jsOrS (v : Option String) (d : String) : String :=
  match v with
  | some s => if s = "" then d else s
  | none => d

/-- Truthiness of an optional string field (JS: absent and empty are falsy). -/
def sTruthy (v : Option String) : Bool :=
  match v with
  | some s => s ≠ ""
  | none => false

/-- toNumber: parseFloat with NaN mapped to 0; an absent field parses to 0. -/
def toNumber (v : Option ℚ) : ℚ := v.getD 0

/-- toOre: Math.round(toNumber(amount) * 100). -/
def toOre (v : Option ℚ) : ℤ := jsRound (toNumber v * 100)

/-- Configuration of the migration (environment variables of the script). -/
structure Config where
  vatRate : ℚ := 1/4
  bankAccount : String := "1920:10001"
  salesAccount : String := "3000"
  shippingAccount : String := "3000"
  feeAccount : String := "7770"
  feePercent : ℚ := 0
  feeAmountFixed : ℤ := 0
deriving Repr, DecidableEq

/-- One Shopify line item (fields used by the script; price and
price_set.shop_money.amount are pre-parsed decimal strings). -/
structure LineItem where
  title : Option String := none
  price : Option ℚ := none
  priceSetAmount : Option ℚ := none
  quantity : Option ℚ := none
deriving Repr, DecidableEq

/-- One Shopify shipping line. -/
structure ShippingLine where
  title : Option String := none
  price : Option ℚ := none
  priceSetAmount : Option ℚ := none
deriving Repr, DecidableEq

/-- Shopify order.customer fields used by the script. -/
structure CustomerInfo where
  email : Option String := none
  first_name : Option String := none
  last_name : Option String := none
  company : Option String := none
deriving Repr, DecidableEq

/-- Shopify order.shipping_address fields used by the script. -/
structure ShipAddress where
  first_name : Option String := none
  last_name : Option String := none
  name : Option String := none
deriving Repr, DecidableEq

/-- Shopify order.billing_address fields used by the script. -/
structure BillAddress where
  address1 : Option String := none
  zip : Option String := none
  city : Option String := none
  country_code : Option String := none
deriving Repr, DecidableEq

/-- A Shopify order snapshot (fields consumed by migrateOrder). -/
structure Order where
  id : ℕ
  order_number : Option ℕ := none
  total_price : Option ℚ := none
  current_total_price : Option ℚ := none
  financial_status : Option String := none
  processed_at : Option String := none
  created_at : Option String := none
  line_items : List LineItem := []
  shipping_lines : List ShippingLine := []
  customer : Option CustomerInfo := none
  shipping_address : Option ShipAddress := none
  billing_address : Option BillAddress := none
deriving Repr, DecidableEq

/-- Business key of an order: the hash sign followed by
order.order_number || order.id (a numeric order_number of 0 is falsy). -/
def saleNumberOf (o : Order) : String :=
  "#" ++ toString (match o.order_number with
    | some n => if n = 0 then o.id else n
    | none => o.id)

/-- Numeric order reference used in the attachment filename:
order.order_number || order.id. -/
def orderRef (o : Order) : ℕ :=
  match o.order_number with
  | some n => if n = 0 then o.id else n
  | none => o.id

/-- Filename of the generated PDF receipt. -/
def pdfFilename (o : Order) : String :=
  "shopify-order-" ++ toString (orderRef o) ++ ".pdf"

/-- Per-unit gross price of a line item in major units:
toNumber(item.price || item.price_set.shop_money.amount || 0). -/
def unitGrossOf (item : LineItem) : ℚ :=
  toNumber (item.price.orElse fun _ => item.priceSetAmount)

/-- Quantity of a line item: toNumber(item.quantity) || 1. -/
def quantityOf (item : LineItem) : ℚ :=
  let q := toNumber item.quantity
  if q = 0 then 1 else q

/-- Gross price of a shipping line in major units:
toNumber(shipping.price || shipping.price_set.shop_money.amount || 0). -/
def shipGrossOf (s : ShippingLine) : ℚ :=
  toNumber (s.price.orElse fun _ => s.priceSetAmount)

/-- One sale line of the Fiken payload. -/
structure SaleLine where
  description : String
  account : String
  vatType : String
  netPrice : ℚ
  netAmount : ℚ
  vat : ℚ
  vatAmount : ℚ
  quantity : ℚ
deriving Repr, DecidableEq, Inhabited

/-- buildSaleLines: one line per product line item (per-unit gross in oere,
per-unit net by Math.round(gross / (1 + vatRate)), scaled by quantity) and one
line per shipping line with positive price (skipped by continue otherwise). -/
def buildSaleLines (cfg : Config) (o : Order) : List SaleLine :=
  let itemLines := o.line_items.map (fun item =>
    let quantity := quantityOf item
    let unitGross := unitGrossOf item
    let grossPerUnitOre : ℤ := jsRound (unitGross * 100)
    let netPerUnitOre : ℤ := jsRound ((grossPerUnitOre : ℚ) / (1 + cfg.vatRate))
    let vatPerUnitOre : ℤ := grossPerUnitOre - netPerUnitOre
    let lineNet : ℚ := (netPerUnitOre : ℚ) * quantity
    let lineVat : ℚ := (vatPerUnitOre : ℚ) * quantity
    { description := jsOrS item.title "Shopify product"
      account := cfg.salesAccount
      vatType := "HIGH"
      netPrice := lineNet
      netAmount := lineNet
      vat := lineVat
      vatAmount := lineVat
      quantity := 1 })
  let shippingLines := o.shipping_lines.filterMap (fun s =>
    let gross := shipGrossOf s
    if gross ≤ 0 then none
    else
      let grossOre : ℤ := jsRound (gross * 100)
      let netOre : ℤ := jsRound ((grossOre : ℚ) / (1 + cfg.vatRate))
      let vatOre : ℤ := grossOre - netOre
      some
        { description := jsOrS s.title "Shipping"
          account := cfg.shippingAccount
          vatType := "HIGH"
          netPrice := (netOre : ℚ)
          netAmount := (netOre : ℚ)
          vat := (vatOre : ℚ)
          vatAmount := (vatOre : ℚ)
          quantity := 1 })
  itemLines ++ shippingLines

/-- Aggregate totals of calculateTotals. -/
structure Totals where
  net : ℚ
  vat : ℚ
  gross : ℚ
deriving Repr, DecidableEq

/-- calculateTotals: sum netAmount and vatAmount over the lines and return
gross as net + vat. -/
def calculateTotals (lines : List SaleLine) : Totals :=
  let net := (lines.map (·.netAmount)).sum
  let vat := (lines.map (·.vatAmount)).sum
  { net := net, vat := vat, gross := net + vat }

/-- Fee before the drop rule: the fixed fee plus, when a positive percentage
is configured, Math.round(gross * feePercent). -/
def rawFeeAmount (cfg : Config) (gross : ℚ) : ℚ :=
  if cfg.feePercent > 0 then
    (cfg.feeAmountFixed : ℚ) + (jsRound (gross * cfg.feePercent) : ℚ)
  else (cfg.feeAmountFixed : ℚ)

/-- computeFeeAmount: the raw fee, except that a fee at least as large as the
gross amount is dropped to 0 (a logged warning in the source). -/
def computeFeeAmount (cfg : Config) (gross : ℚ) : ℚ :=
  if rawFeeAmount cfg gross ≥ gross then 0 else rawFeeAmount cfg gross

/-- Bank settlement amount of migrateOrder: gross minus the fee when a
positive fee is charged, the full gross otherwise. -/
def bankPaymentAmountOf (cfg : Config) (gross : ℚ) : ℚ :=
  if computeFeeAmount cfg gross > 0 then gross - computeFeeAmount cfg gross
  else gross

/-- Gross total reported by Shopify, in oere:
toOre(order.total_price || order.current_total_price || totals.gross / 100).
The decimal string fields fall back only when absent. -/
def shopifyGrossOf (o : Order) (totals : Totals) : ℤ :=
  jsRound ((match o.total_price with
    | some v => v
    | none =>
      match o.current_total_price with
      | some v => v
      | none => totals.gross / 100) * 100)

/-- Deviation between the Shopify-reported gross and the computed aggregate
gross; the source only logs a warning when its absolute value exceeds 2. -/
def totalsDeviation (cfg : Config) (o : Order) : ℚ :=
  let totals := calculateTotals (buildSaleLines cfg o)
  (shopifyGrossOf o totals : ℚ) - totals.gross

/-- Sale date: order.processed_at || order.created_at || now, truncated to\nthe calendar-date part before the uppercase T separator. -/
def saleDateOf (o : Order) : String :=
  (jsOrS o.processed_at (jsOrS o.created_at "1970-01-01T00:00:00Z")).takeWhile
    (fun c => c ≠ 'T')

/-- A contact record on the remote Fiken ledger (contactId from the Location
header of the create response; found contacts carry one as well). -/
structure FikenContact where
  contactId : ℕ
  email : Option String := none
  name : String := ""
deriving Repr, DecidableEq

/-- A sale record on the remote Fiken ledger; attachments are recorded by
filename (the downloadUrl-contains check of the source becomes equality). -/
structure FikenSale where
  saleId : ℕ
  saleNumber : String
  saleAttachments : List String := []
deriving Repr, DecidableEq

/-- State of the remote Fiken ledger: sales, contacts, registered payments
and a fresh-identifier counter. -/
structure RemoteState where
  sales : List FikenSale := []
  contacts : List FikenContact := []
  payments : List (ℕ × String × ℚ) := []
  nextId : ℕ := 1
deriving Repr, DecidableEq

/-- Remote operations issued by the worker, as recorded in the trace. -/
inductive Op where
  | listCustomers : Op
  | createCustomer : Op
  | findSale (saleNumber : String) : Op
  | createSale (saleNumber : String) : Op
  | addPayment (account : String) (amount : ℚ) : Op
  | attachFile (saleId : ℕ) : Op
deriving Repr, DecidableEq

/-- Remote write operations (reads are listCustomers and findSale). -/
def Op.isWrite : Op → Bool
  | .listCustomers => false
  | .findSale _ => false
  | _ => true

/-- Recognizer for createSale trace entries. -/
def Op.isCreateSale : Op → Bool
  | .createSale _ => true
  | _ => false

/-- Recognizer for addPayment trace entries. -/
def Op.isAddPayment : Op → Bool
  | .addPayment _ _ => true
  | _ => false

/-- Recognizer for attachFile trace entries. -/
def Op.isAttachFile : Op → Bool
  | .attachFile _ => true
  | _ => false

/-- In-run customer cache of the migration (Map keyed by customer key). -/
def Cache := List (String × FikenContact)

/-- Customer key: order.customer.email.toLowerCase() || order-id key. -/
def customerKey (o : Order) : String :=
  match o.customer.bind (·.email) with
  | some e => if e = "" then "order-" ++ toString o.id else e.toLower
  | none => "order-" ++ toString o.id

/-- Name of a customer to create, from the name fallback chain of the
source: customer first/last name, shipping-address first/last name, company,
shipping-address name, then the generic label. -/
def buildCustomerName (o : Order) : String :=
  let first := jsOrS (o.customer.bind (·.first_name))
    (jsOrS (o.shipping_address.bind (·.first_name)) "")
  let last := jsOrS (o.customer.bind (·.last_name))
    (jsOrS (o.shipping_address.bind (·.last_name)) "")
  let full := (first ++ " " ++ last).trim
  if full ≠ "" then full
  else jsOrS (o.customer.bind (·.company))
    (jsOrS (o.shipping_address.bind (·.name)) "Shopify Customer")

/-- getOrCreateCustomer: consult the in-run cache; on miss, when an email is
present list the remote customers and match by case-insensitive email; on a
remaining miss create the customer remotely.  Returns the contact, the new
remote state, the new cache and the remote operations issued. -/
def getOrCreateCustomer (o : Order) (remote : RemoteState) (cache : Cache) :
    FikenContact × RemoteState × Cache × List Op :=
  let key := customerKey o
  match List.lookup key cache with
  | some c => (c, remote, cache, [])
  | none =>
    let email := o.customer.bind (·.email)
    let (found, ops1) :=
      if sTruthy email then
        (remote.contacts.find? (fun c =>
          match c.email, email with
          | some ce, some e => ce.toLower = e.toLower
          | _, _ => false), [Op.listCustomers])
      else (none, [])
    match found with
    | some c => (c, remote, (key, c) :: cache, ops1)
    | none =>
      let newC : FikenContact :=
        { contactId := remote.nextId
          email := email
          name := buildCustomerName o }
      (newC,
        { remote with
          contacts := remote.contacts ++ [newC]
          nextId := remote.nextId + 1 },
        (key, newC) :: cache,
        ops1 ++ [Op.createCustomer])

/-- findSaleByNumber: GET the sales resource filtered by saleNumber with page
size 1 and return the first hit, if any, together with the read operation. -/
def findSaleByNumber (remote : RemoteState) (saleNumber : String) :
    Option FikenSale × List Op :=
  (((remote.sales.filter (fun s => s.saleNumber = saleNumber)).take 1).head?,
    [Op.findSale saleNumber])

/-- createSale on the remote ledger: append a sale with a fresh saleId. -/
def createSaleRemote (remote : RemoteState) (saleNumber : String) :
    FikenSale × RemoteState :=
  let s : FikenSale := { saleId := remote.nextId, saleNumber := saleNumber }
  (s, { remote with sales := remote.sales ++ [s], nextId := remote.nextId + 1 })

/-- addSalePayment on the remote ledger: record a payment line. -/
def addSalePayment (remote : RemoteState) (saleId : ℕ) (account : String)
    (amount : ℚ) : RemoteState :=
  { remote with payments := remote.payments ++ [(saleId, account, amount)] }

/-- attachFileToSale on the remote ledger: add the filename to the sale. -/
def attachFileToSale (remote : RemoteState) (saleId : ℕ) (filename : String) :
    RemoteState :=
  { remote with
    sales := remote.sales.map (fun s =>
      if s.saleId = saleId then
        { s with saleAttachments := s.saleAttachments ++ [filename] }
      else s) }

/-- Errors thrown by migrateOrder in the model (the customerId check of the
source cannot fire here because every modelled contact carries an id). -/
inductive MErr where
  | noBillableLines : MErr
deriving Repr, DecidableEq

/-- migrateOrder: resolve the customer, build the sale lines (throwing when
none are billable), compute totals, and in non-dry-run mode search the ledger
by sale number before creating; an existing sale only gets the PDF attached
when missing, a fresh sale is created, settled (bank line plus optional fee
line) and gets the PDF attached.  The deviation check against the
Shopify-reported total (totalsDeviation, threshold 2 oere) only logs a
warning in the source and has no effect on the outcome.  Dry-run mode returns
after logging the payload, so the customer resolution has already run. -/
def migrateOrder (cfg : Config) (dryRun : Bool) (o : Order)
    (remote : RemoteState) (cache : Cache) :
    RemoteState × Cache × List Op × Option MErr :=
  let saleNumber := saleNumberOf o
  let (_customer, remote1, cache1, ops1) := getOrCreateCustomer o remote cache
  let lines := buildSaleLines cfg o
  if lines.isEmpty then (remote1, cache1, ops1, some .noBillableLines)
  else
    let totals := calculateTotals lines
    let _shopifyGross := shopifyGrossOf o totals
    let _saleDate := saleDateOf o
    if dryRun then (remote1, cache1, ops1, none)
    else
      match findSaleByNumber remote1 saleNumber with
      | (some existingSale, ops2) =>
        let filename := pdfFilename o
        let needsAttachment :=
          ¬ (existingSale.saleAttachments.any (fun a => a = filename))
        if needsAttachment then
          (attachFileToSale remote1 existingSale.saleId filename, cache1,
            ops1 ++ ops2 ++ [Op.attachFile existingSale.saleId], none)
        else (remote1, cache1, ops1 ++ ops2, none)
      | (none, ops2) =>
        let (sale, remote2) := createSaleRemote remote1 saleNumber
        let feeAmount := computeFeeAmount cfg totals.gross
        let bankPaymentAmount := bankPaymentAmountOf cfg totals.gross
        let (remote3, ops3) :=
          if bankPaymentAmount > 0 then
            (addSalePayment remote2 sale.saleId cfg.bankAccount
              bankPaymentAmount,
              [Op.addPayment cfg.bankAccount bankPaymentAmount])
          else (remote2, [])
        let (remote4, ops4) :=
          if feeAmount > 0 then
            (addSalePayment remote3 sale.saleId cfg.feeAccount feeAmount,
              [Op.addPayment cfg.feeAccount feeAmount])
          else (remote3, [])
        let remote5 := attachFileToSale remote4 sale.saleId (pdfFilename o)
        (remote5, cache1,
          ops1 ++ ops2 ++ [Op.createSale saleNumber] ++ ops3 ++ ops4
            ++ [Op.attachFile sale.saleId], none)

/-- Number of sales on the remote ledger carrying a given sale number. -/
def countSales (saleNumber : String) (r : RemoteState) : ℕ :=
  (r.sales.filter (fun s => s.saleNumber = saleNumber)).length

/-- Search-before-create check on a trace: every createSale is preceded by a
findSale for the same sale number. -/
def checkSBC : List String → List Op → Bool
  | _, [] => true
  | seen, Op.findSale n :: rest => checkSBC (n :: seen) rest
  | seen, Op.createSale n :: rest => seen.contains n && checkSBC seen rest
  | seen, _ :: rest => checkSBC seen rest

/-- Per-line gross amounts of an order, read off the source formulas: the
rounded per-unit price in oere scaled by the quantity for product lines, the
rounded price in oere for each positive shipping line. -/
def lineGrossAmounts (cfg : Config) (o : Order) : List ℚ :=
  o.line_items.map (fun item =>
    ((jsRound (unitGrossOf item * 100) : ℚ)) * quantityOf item)
    ++ o.shipping_lines.filterMap (fun s =>
      let gross := shipGrossOf s
      if gross ≤ 0 then none else some ((jsRound (gross * 100) : ℚ)))

lemma gcc_sales (o : Order) (remote : RemoteState) (cache : Cache) :
    (getOrCreateCustomer o remote cache).2.1.sales = remote.sales := by
  unfold getOrCreateCustomer
  cases hk : List.lookup (customerKey o) cache with
  | some c => simp only [hk]
  | none =>
    simp only [hk]
    by_cases hs : sTruthy (o.customer.bind (·.email))
    · simp only [hs, if_true]
      cases hf : remote.contacts.find? (fun c =>
        match c.email, o.customer.bind (·.email) with
        | some ce, some e => ce.toLower = e.toLower
        | _, _ => false) with
      | some c => simp only [hf]
      | none => simp only [hf]
    · simp only [hs, if_false, Bool.false_eq_true]

lemma gcc_payments (o : Order) (remote : RemoteState) (cache : Cache) :
    (getOrCreateCustomer o remote cache).2.1.payments = remote.payments := by
  unfold getOrCreateCustomer
  cases hk : List.lookup (customerKey o) cache with
  | some c => simp only [hk]
  | none =>
    simp only [hk]
    by_cases hs : sTruthy (o.customer.bind (·.email))
    · simp only [hs, if_true]
      cases hf : remote.contacts.find? (fun c =>
        match c.email, o.customer.bind (·.email) with
        | some ce, some e => ce.toLower = e.toLower
        | _, _ => false) with
      | some c => simp only [hf]
      | none => simp only [hf]
    · simp only [hs, if_false, Bool.false_eq_true]

lemma gcc_ops (o : Order) (remote : RemoteState) (cache : Cache) :
    ∀ op ∈ (getOrCreateCustomer o remote cache).2.2.2,
      op = Op.listCustomers ∨ op = Op.createCustomer := by
  unfold getOrCreateCustomer
  cases hk : List.lookup (customerKey o) cache with
  | some c => simp only [hk]; simp
  | none =>
    simp only [hk]
    by_cases hs : sTruthy (o.customer.bind (·.email))
    · simp only [hs, if_true]
      cases hf : remote.contacts.find? (fun c =>
        match c.email, o.customer.bind (·.email) with
        | some ce, some e => ce.toLower = e.toLower
        | _, _ => false) with
      | some c => simp only [hf]; simp
      | none => simp only [hf]; simp
    · simp only [hs, if_false, Bool.false_eq_true]; simp

lemma migrateOrder_outcome (cfg : Config) (dr : Bool) (o : Order)
    (remote : RemoteState) (cache : Cache) :
    (migrateOrder cfg dr o remote cache).2.2.2 =
      if (buildSaleLines cfg o).isEmpty then some MErr.noBillableLines
      else none := by
  unfold migrateOrder
  rcases hG : getOrCreateCustomer o remote cache with ⟨cu, rA, cA, opsA⟩
  simp only [hG]
  by_cases hl : (buildSaleLines cfg o).isEmpty
  · simp [hl]
  · simp only [hl, Bool.false_eq_true, if_false]
    cases dr with
    | true => simp
    | false =>
      simp only [Bool.false_eq_true, if_false, findSaleByNumber]
      cases hh : ((rA.sales.filter
          (fun s => s.saleNumber = saleNumberOf o)).take 1).head? with
      | some s =>
        simp only [hh]
        split <;> simp
      | none => simp [hh]

lemma countSales_attach (n : String) (r : RemoteState) (sid : ℕ)
    (f : String) : countSales n (attachFileToSale r sid f) = countSales n r := by
  unfold countSales attachFileToSale
  simp only []
  induction r.sales with
  | nil => rfl
  | cons s t ih =>
    by_cases h : s.saleId = sid <;>
      by_cases hn : s.saleNumber = n <;>
      simp [h, hn, List.filter_cons, ih]

lemma countSales_addPayment (n : String) (r : RemoteState) (sid : ℕ)
    (acc : String) (amt : ℚ) :
    countSales n (addSalePayment r sid acc amt) = countSales n r := rfl

lemma countSales_createSaleRemote (n m : String) (r : RemoteState) :
    countSales n (createSaleRemote r m).2 =
      countSales n r + if m = n then 1 else 0 := by
  unfold countSales createSaleRemote
  by_cases h : m = n <;> simp [h, List.filter_append]

lemma filter_sales_eq_nil (n : String) (r : RemoteState)
    (h : countSales n r = 0) :
    r.sales.filter (fun s => s.saleNumber = n) = [] := by
  unfold countSales at h
  exact List.length_eq_zero.mp h

lemma findSale_head_of_pos (n : String) (r : RemoteState)
    (h : 0 < countSales n r) :
    ∃ s, ((r.sales.filter (fun s => s.saleNumber = n)).take 1).head? = some s
      ∧ s.saleNumber = n := by
  unfold countSales at h
  rcases hf : r.sales.filter (fun s => s.saleNumber = n) with _ | ⟨s, t⟩
  · rw [hf] at h; simp at h
  · refine ⟨s, by simp [hf], ?_⟩
    have hmem : s ∈ r.sales.filter (fun s => s.saleNumber = n) := by
      rw [hf]; exact List.mem_cons_self s t
    simpa using (List.mem_filter.mp hmem).2

lemma checkSBC_append_other (l : List Op)
    (h : ∀ op ∈ l, op = Op.listCustomers ∨ op = Op.createCustomer) :
    ∀ seen rest, checkSBC seen (l ++ rest) = checkSBC seen rest := by
  induction l with
  | nil => intro seen rest; rfl
  | cons op t ih =>
    intro seen rest
    rcases h op (List.mem_cons_self op t) with rfl | rfl <;>
      simpa [checkSBC] using ih (fun x hx => h x (List.mem_cons_of_mem _ hx))
        seen rest

lemma checkSBC_no_create (l : List Op)
    (h : ∀ op ∈ l, op.isCreateSale = false) :
    ∀ seen, checkSBC seen l = true := by
  induction l with
  | nil => intro seen; rfl
  | cons op t ih =>
    intro seen
    have ht : ∀ op ∈ t, op.isCreateSale = false :=
      fun x hx => h x (List.mem_cons_of_mem _ hx)
    cases op with
    | createSale m => exact absurd (h _ (List.mem_cons_self _ t)) (by simp [Op.isCreateSale])
    | findSale m => simpa [checkSBC] using ih ht _
    | listCustomers => simpa [checkSBC] using ih ht _
    | createCustomer => simpa [checkSBC] using ih ht _
    | addPayment a b => simpa [checkSBC] using ih ht _
    | attachFile i => simpa [checkSBC] using ih ht _

lemma migrateOrder_fresh_count (cfg : Config) (o : Order)
    (remote : RemoteState) (cache : Cache)
    (hl : ¬(buildSaleLines cfg o).isEmpty = true)
    (h0 : countSales (saleNumberOf o) remote = 0) :
    countSales (saleNumberOf o) (migrateOrder cfg false o remote cache).1
      = 1 := by
  unfold migrateOrder
  rcases hG : getOrCreateCustomer o remote cache with ⟨cu, rA, cA, opsA⟩
  have hrA : rA.sales = remote.sales := by
    have h := gcc_sales o remote cache; rw [hG] at h; exact h
  have h0A : countSales (saleNumberOf o) rA = 0 := by
    unfold countSales; rw [hrA]; exact h0
  have hfil : rA.sales.filter (fun s => s.saleNumber = saleNumberOf o) = [] :=
    filter_sales_eq_nil _ _ h0A
  simp only [hG, hl, Bool.false_eq_true, if_false, findSaleByNumber, hfil,
    List.take_nil, List.head?_nil]
  by_cases hbank : bankPaymentAmountOf cfg
      (calculateTotals (buildSaleLines cfg o)).gross > 0 <;>
    by_cases hfee : computeFeeAmount cfg
        (calculateTotals (buildSaleLines cfg o)).gross > 0 <;>
    simp [hbank, hfee, countSales_attach, countSales_addPayment,
      countSales_createSaleRemote, h0A]

lemma migrateOrder_fresh_trace (cfg : Config) (o : Order)
    (remote : RemoteState) (cache : Cache)
    (hl : ¬(buildSaleLines cfg o).isEmpty = true)
    (h0 : countSales (saleNumberOf o) remote = 0) :
    ∃ ops34 sid,
      (migrateOrder cfg false o remote cache).2.2.1 =
        (getOrCreateCustomer o remote cache).2.2.2
          ++ [Op.findSale (saleNumberOf o)]
          ++ [Op.createSale (saleNumberOf o)] ++ ops34
          ++ [Op.attachFile sid] ∧
      ∀ op ∈ ops34, ∃ acc amt, op = Op.addPayment acc amt ∧ 0 < amt := by
  unfold migrateOrder
  rcases hG : getOrCreateCustomer o remote cache with ⟨cu, rA, cA, opsA⟩
  have hrA : rA.sales = remote.sales := by
    have h := gcc_sales o remote cache; rw [hG] at h; exact h
  have h0A : countSales (saleNumberOf o) rA = 0 := by
    unfold countSales; rw [hrA]; exact h0
  have hfil : rA.sales.filter (fun s => s.saleNumber = saleNumberOf o) = [] :=
    filter_sales_eq_nil _ _ h0A
  simp only [hG, hl, Bool.false_eq_true, if_false, findSaleByNumber, hfil,
    List.take_nil, List.head?_nil]
  by_cases hbank : bankPaymentAmountOf cfg
      (calculateTotals (buildSaleLines cfg o)).gross > 0 <;>
    by_cases hfee : computeFeeAmount cfg
        (calculateTotals (buildSaleLines cfg o)).gross > 0
  · refine ⟨[Op.addPayment cfg.bankAccount (bankPaymentAmountOf cfg
        (calculateTotals (buildSaleLines cfg o)).gross),
      Op.addPayment cfg.feeAccount (computeFeeAmount cfg
        (calculateTotals (buildSaleLines cfg o)).gross)],
      (createSaleRemote rA (saleNumberOf o)).1.saleId, ?_, ?_⟩
    · simp [hbank, hfee, hG]
    · intro op hop
      rcases List.mem_cons.mp hop with rfl | hop
      · exact ⟨_, _, rfl, hbank⟩
      · rcases List.mem_cons.mp hop with rfl | hop
        · exact ⟨_, _, rfl, hfee⟩
        · cases hop
  · refine ⟨[Op.addPayment cfg.bankAccount (bankPaymentAmountOf cfg
        (calculateTotals (buildSaleLines cfg o)).gross)],
      (createSaleRemote rA (saleNumberOf o)).1.saleId, ?_, ?_⟩
    · simp [hbank, hfee, hG]
    · intro op hop
      rcases List.mem_cons.mp hop with rfl | hop
      · exact ⟨_, _, rfl, hbank⟩
      · cases hop
  · refine ⟨[Op.addPayment cfg.feeAccount (computeFeeAmount cfg
        (calculateTotals (buildSaleLines cfg o)).gross)],
      (createSaleRemote rA (saleNumberOf o)).1.saleId, ?_, ?_⟩
    · simp [hbank, hfee, hG]
    · intro op hop
      rcases List.mem_cons.mp hop with rfl | hop
      · exact ⟨_, _, rfl, hfee⟩
      · cases hop
  · refine ⟨[], (createSaleRemote rA (saleNumberOf o)).1.saleId, ?_, ?_⟩
    · simp [hbank, hfee, hG]
    · intro op hop; cases hop

lemma migrateOrder_existing (cfg : Config) (o : Order)
    (remote : RemoteState) (cache : Cache)
    (hpos : 0 < countSales (saleNumberOf o) remote) :
    countSales (saleNumberOf o) (migrateOrder cfg false o remote cache).1
        = countSales (saleNumberOf o) remote ∧
      ∀ op ∈ (migrateOrder cfg false o remote cache).2.2.1,
        op = Op.listCustomers ∨ op = Op.createCustomer
          ∨ op = Op.findSale (saleNumberOf o)
          ∨ ∃ sid, op = Op.attachFile sid := by
  unfold migrateOrder
  rcases hG : getOrCreateCustomer o remote cache with ⟨cu, rA, cA, opsA⟩
  have hrA : rA.sales = remote.sales := by
    have h := gcc_sales o remote cache; rw [hG] at h; exact h
  have hposA : 0 < countSales (saleNumberOf o) rA := by
    unfold countSales; rw [hrA]; exact hpos
  have hcs : countSales (saleNumberOf o) rA
      = countSales (saleNumberOf o) remote := by
    unfold countSales; rw [hrA]
  have hopsA : ∀ op ∈ opsA, op = Op.listCustomers ∨ op = Op.createCustomer := by
    have h := gcc_ops o remote cache; rw [hG] at h; exact h
  by_cases hl : (buildSaleLines cfg o).isEmpty
  · simp only [hG, hl, if_true]
    exact ⟨hcs, fun op hop => Or.elim (hopsA op hop)
      (fun h => Or.inl h) (fun h => Or.inr (Or.inl h))⟩
  · obtain ⟨s, hs, hsn⟩ := findSale_head_of_pos (saleNumberOf o) rA hposA
    simp only [hG, hl, Bool.false_eq_true, if_false, findSaleByNumber, hs]
    constructor
    · split <;> simp [countSales_attach, hcs]
    · intro op hop
      split at hop <;> simp only [List.append_assoc, List.mem_append,
        List.mem_cons, List.mem_singleton, List.not_mem_nil, or_false] at hop
      · rcases hop with hop | hop | hop
        · exact Or.elim (hopsA op hop) (fun h => Or.inl h)
            (fun h => Or.inr (Or.inl h))
        · exact Or.inr (Or.inr (Or.inl hop))
        · exact Or.inr (Or.inr (Or.inr ⟨_, hop⟩))
      · rcases hop with hop | hop
        · exact Or.elim (hopsA op hop) (fun h => Or.inl h)
            (fun h => Or.inr (Or.inl h))
        · exact Or.inr (Or.inr (Or.inl hop))

lemma migrateOrder_dryRun (cfg : Config) (o : Order)
    (remote : RemoteState) (cache : Cache) :
    (migrateOrder cfg true o remote cache).1.sales = remote.sales ∧
    (migrateOrder cfg true o remote cache).1.payments = remote.payments ∧
    (migrateOrder cfg true o remote cache).2.2.1 =
      (getOrCreateCustomer o remote cache).2.2.2 := by
  unfold migrateOrder
  rcases hG : getOrCreateCustomer o remote cache with ⟨cu, rA, cA, opsA⟩
  have hs := gcc_sales o remote cache; rw [hG] at hs
  have hp := gcc_payments o remote cache; rw [hG] at hp
  by_cases hl : (buildSaleLines cfg o).isEmpty <;> simp [hG, hl] <;>
    exact ⟨hs, hp⟩

lemma migrateOrder_empty (cfg : Config) (dr : Bool) (o : Order)
    (remote : RemoteState) (cache : Cache)
    (hl : (buildSaleLines cfg o).isEmpty = true) :
    (migrateOrder cfg dr o remote cache).1 =
        (getOrCreateCustomer o remote cache).2.1 ∧
      (migrateOrder cfg dr o remote cache).2.2.1 =
        (getOrCreateCustomer o remote cache).2.2.2 := by
  unfold migrateOrder
  rcases hG : getOrCreateCustomer o remote cache with ⟨cu, rA, cA, opsA⟩
  simp [hG, hl]

/-- Payment amounts recorded in a trace entry are positive (vacuous for the
other operations). -/
def paymentPositive : Op → Bool
  | .addPayment _ amt => decide (0 < amt)
  | _ => true

lemma migrateOrder_payments_positive (cfg : Config) (dr : Bool) (o : Order)
    (remote : RemoteState) (cache : Cache) :
    ((migrateOrder cfg dr o remote cache).2.2.1.all paymentPositive)
      = true := by
  have hgcc := gcc_ops o remote cache
  have hg : ((getOrCreateCustomer o remote cache).2.2.2.all paymentPositive)
      = true := by
    rw [List.all_eq_true]
    intro op hop
    rcases hgcc op hop with rfl | rfl <;> rfl
  cases dr with
  | true =>
    obtain ⟨-, -, htr⟩ := migrateOrder_dryRun cfg o remote cache
    rw [htr]; exact hg
  | false =>
    by_cases hl : (buildSaleLines cfg o).isEmpty
    · obtain ⟨-, htr⟩ := migrateOrder_empty cfg false o remote cache hl
      rw [htr]; exact hg
    · by_cases h0 : countSales (saleNumberOf o) remote = 0
      · obtain ⟨ops34, sid, htr, hpay⟩ :=
          migrateOrder_fresh_trace cfg o remote cache hl h0
        rw [htr, List.all_eq_true]
        intro op hop
        simp only [List.append_assoc, List.mem_append, List.mem_cons,
          List.not_mem_nil, or_false, List.mem_singleton] at hop
        rcases hop with hop | hop | hop | hop | hop
        · rw [List.all_eq_true] at hg; exact hg op hop
        · subst hop; rfl
        · subst hop; rfl
        · obtain ⟨acc, amt, rfl, hamt⟩ := hpay op hop
          simpa [paymentPositive] using hamt
        · subst hop; rfl
      · have hpos : 0 < countSales (saleNumberOf o) remote :=
          Nat.pos_of_ne_zero h0
        obtain ⟨-, hops⟩ := migrateOrder_existing cfg o remote cache hpos
        rw [List.all_eq_true]
        intro op hop
        rcases hops op hop with rfl | rfl | rfl | ⟨sid, rfl⟩ <;> rfl

end Migration

namespace Fiken

/-- Outcome of one HTTP attempt against the Fiken API: a successful response
body, an HTTP error response (status, optional error body), or a network
failure with no response. -/
inductive Outcome where
  | success (data : String) : Outcome
  | httpError (status : ℕ) (body : Option String) : Outcome
  | networkError : Outcome
deriving Repr, DecidableEq

/-- Error surfaced by FikenAPI.request: the enhanced error built when the
response carries a body, the plain rethrown error otherwise, or a network
error. -/
inductive FikenError where
  | enhanced (status : ℕ) (body : String) : FikenError
  | plain (status : ℕ) : FikenError
  | network : FikenError
deriving Repr, DecidableEq

/-- Result of FikenAPI.request, together with the number of HTTP attempts the
client made against the remote service. -/
structure RequestResult where
  attempts : ℕ
  result : Except FikenError String
deriving Repr

/-- Success observer on a request result. -/
def isOk : Except FikenError String → Bool
  | .ok _ => true
  | .error _ => false

/-- One call of the axios client: a single HTTP attempt, consuming the first
planned remote outcome (an exhausted plan behaves as a network failure). -/
def clientRequest (remote : List Outcome) : Outcome :=
  remote.headD .networkError

/-- FikenAPI.request: build the request config and issue exactly one client
call; on an error response with a body, rethrow the enhanced error carrying
the response body verbatim, otherwise rethrow the error unchanged.  No branch
retries the call. -/
def request (remote : List Outcome) (method endpoint : String)
    (data : Option String) : RequestResult :=
  let _url := if endpoint.startsWith "/" then endpoint else "/" ++ endpoint
  let _hasData := data.isSome ∧ (method = "POST" ∨ method = "PUT" ∨
    method = "PATCH" ∨ method = "GET")
  match clientRequest remote with
  | .success d => { attempts := 1, result := .ok d }
  | .httpError s (some b) => { attempts := 1, result := .error (.enhanced s b) }
  | .httpError s none => { attempts := 1, result := .error (.plain s) }
  | .networkError => { attempts := 1, result := .error .network }

/-- FikenAPI.createSale: one POST to the sales resource through the client;
errors are logged with the response data and rethrown, never retried. -/
def createSale (remote : List Outcome) (companySlug : String)
    (saleData : String) : RequestResult :=
  request remote "POST" ("/companies/" ++ companySlug ++ "/sales")
    (some saleData)

end Fiken

namespace Server

/-- An inbound webhook request: the exact raw body bytes and the
x-shopify-hmac-sha256 header, when present. -/
structure WebhookReq where
  rawBody : List ℕ := []
  hmacHeader : Option String := none
deriving Repr, DecidableEq

/-- The order payload shapes known to extractOrderId: a direct id, a nested
order id, and the typed global identifier string.  Values are the JS strings
String(value) would produce; absent fields are none. -/
structure Payload where
  id : Option String := none
  order_id : Option String := none
  orderNestedId : Option String := none
  admin_graphql_api_id : Option String := none
deriving Repr, DecidableEq

/-- verifyShopifySignature: reject when no webhook secret is configured;
otherwise compare the signature header (empty when missing) with the base64
HMAC-SHA256 of the exact raw body under the secret, first by length and then
byte for byte (timingSafeEqual).  The digest primitive is the abstract hmac
parameter. -/
def verifyShopifySignature (hmac : String → List ℕ → String)
    (webhookSecret : String) (req : WebhookReq) : Bool :=
  if webhookSecret = "" then false
  else
    let signature := req.hmacHeader.getD ""
    let generated := hmac webhookSecret req.rawBody
    if generated.length ≠ signature.length then false
    else generated = signature

/-- Digits of a candidate value: String(value).replace of every non-digit. -/
def digitsOf (s : String) : String :=
  ⟨s.toList.filter (fun c => c.isDigit)⟩

/-- parseInt on the digit-stripped candidate: NaN (none) only when no digit
remains. -/
def parseCandidate (s : String) : Option ℕ :=
  if (digitsOf s).isEmpty then none else some (digitsOf s).toNat!

/-- extractOrderId: try payload.id, payload.order_id, payload.order.id and
payload.admin_graphql_api_id in order (falsy candidates dropped), returning
the first that parses to a number. -/
def extractOrderId (p : Payload) : Option ℕ :=
  let candidates :=
    ([p.id, p.order_id, p.orderNestedId, p.admin_graphql_api_id].filterMap
      (fun c => match c with
        | some s => if s = "" then none else some s
        | none => none))
  candidates.firstM parseCandidate

/-- enqueueOrder.  Modelled from the spec: the lib/db durable-queue write is
not under src; the spec describes it as a durable queue write that is
fire-and-forget from the caller, so it is modelled as a total append of the
order key to the queue. -/
def enqueueOrder (orderId : ℕ) (queue : List ℕ) : List ℕ :=
  queue ++ [orderId]

/-- The POST /webhooks/orders-paid handler: 401 without enqueue on a failed
signature check; otherwise enqueue the extracted order id when one is found
(only a log when none is) and answer 202. -/
def ordersPaidHandler (hmac : String → List ℕ → String) (secret : String)
    (req : WebhookReq) (payload : Payload) (queue : List ℕ) :
    ℕ × List ℕ :=
  if verifyShopifySignature hmac secret req then
    match extractOrderId payload with
    | some orderId => (202, enqueueOrder orderId queue)
    | none => (202, queue)
  else (401, queue)

/-- The POST /webhooks/refunds-create handler: 401 on a failed signature
check, otherwise a log and 202; it never enqueues. -/
def refundsCreateHandler (hmac : String → List ℕ → String) (secret : String)
    (req : WebhookReq) (queue : List ℕ) : ℕ × List ℕ :=
  if verifyShopifySignature hmac secret req then (202, queue) else (401, queue)

/-- The POST /webhooks/orders-cancelled handler: 401 on a failed signature
check, otherwise a log and 202; it never enqueues. -/
def ordersCancelledHandler (hmac : String → List ℕ → String) (secret : String)
    (req : WebhookReq) (queue : List ℕ) : ℕ × List ℕ :=
  if verifyShopifySignature hmac secret req then (202, queue) else (401, queue)

end Server

section ClaimTheorems

open Migration

/-- C2: every line produced by buildSaleLines satisfies netAmount + vatAmount
equal to the gross minor-unit amount of that line (the per-line gross of the\nsource,
collected in lineGrossAmounts), and the aggregate returned by calculateTotals
satisfies net + vat = gross. -/
theorem claim_C2_net_plus_vat_eq_gross (cfg : Config) (o : Order) :
    ((buildSaleLines cfg o).map (fun l => l.netAmount + l.vatAmount)
        = lineGrossAmounts cfg o)
      ∧ ∀ lines, (calculateTotals lines).net + (calculateTotals lines).vat
        = (calculateTotals lines).gross := by
  constructor
  · unfold buildSaleLines lineGrossAmounts
    simp only [List.map_append]
    congr 1
    · induction o.line_items with
      | nil => rfl
      | cons it t ih =>
        simp only [List.map_cons, List.map_map] at ih ⊢
        refine congrArg₂ List.cons ?_ ih
        push_cast
        ring
    · induction o.shipping_lines with
      | nil => rfl
      | cons sl t ih =>
        simp only [List.filterMap_cons]
        by_cases hg : shipGrossOf sl ≤ 0
        · simpa [hg] using ih
        · simp only [hg, if_false, List.map_cons]
          refine congrArg₂ List.cons ?_ ih
          push_cast
          ring
  · intro lines
    simp [calculateTotals]

/-- C3: for a nonnegative computed gross and a nonnegative fee configuration,
a computed raw fee of at least the gross is dropped (computeFeeAmount returns
0) so the full gross is settled to the bank account; otherwise the settlement
splits so that the bank payment amount plus the fee equals gross; both
settlement amounts are nonnegative, and every payment actually registered by
migrateOrder carries a positive amount. -/
theorem claim_C3_fee_settlement_split (cfg : Config) (gross : ℚ) (dr : Bool)
    (o : Order) (remote : RemoteState) (cache : Cache)
    (hfix : 0 ≤ cfg.feeAmountFixed) (hpct : 0 ≤ cfg.feePercent)
    (hg : 0 ≤ gross) :
    (rawFeeAmount cfg gross ≥ gross → computeFeeAmount cfg gross = 0 ∧
        bankPaymentAmountOf cfg gross = gross)
      ∧ bankPaymentAmountOf cfg gross + computeFeeAmount cfg gross = gross
      ∧ 0 ≤ bankPaymentAmountOf cfg gross
      ∧ 0 ≤ computeFeeAmount cfg gross
      ∧ ((migrateOrder cfg dr o remote cache).2.2.1.all paymentPositive)
          = true := by
  have hraw : 0 ≤ rawFeeAmount cfg gross := by
    unfold rawFeeAmount
    split
    · have h1 : (0 : ℚ) ≤ gross * cfg.feePercent := mul_nonneg hg hpct
      have h2 : (0 : ℤ) ≤ jsRound (gross * cfg.feePercent) := by
        unfold jsRound
        refine Int.le_floor.mpr ?_
        push_cast
        linarith
      have h3 : (0 : ℚ) ≤ (cfg.feeAmountFixed : ℚ) := by exact_mod_cast hfix
      have h4 : (0 : ℚ) ≤ ((jsRound (gross * cfg.feePercent) : ℤ) : ℚ) := by
        exact_mod_cast h2
      linarith
    · exact_mod_cast hfix
  have hdrop : rawFeeAmount cfg gross ≥ gross →
      computeFeeAmount cfg gross = 0 ∧ bankPaymentAmountOf cfg gross = gross := by
    intro hge
    have hfee : computeFeeAmount cfg gross = 0 := by
      unfold computeFeeAmount
      exact if_pos hge
    refine ⟨hfee, ?_⟩
    unfold bankPaymentAmountOf
    rw [hfee]
    simp
  refine ⟨hdrop, ?_, ?_, ?_,
    migrateOrder_payments_positive cfg dr o remote cache⟩
  · by_cases hge : rawFeeAmount cfg gross ≥ gross
    · obtain ⟨h1, h2⟩ := hdrop hge
      rw [h1, h2, add_zero]
    · have hfee : computeFeeAmount cfg gross = rawFeeAmount cfg gross := by
        unfold computeFeeAmount
        exact if_neg hge
      unfold bankPaymentAmountOf
      rw [hfee]
      by_cases hpos : rawFeeAmount cfg gross > 0
      · rw [if_pos hpos]; ring
      · have hz : rawFeeAmount cfg gross = 0 := le_antisymm (not_lt.mp hpos) hraw
        rw [if_neg hpos, hz, add_zero]
  · by_cases hge : rawFeeAmount cfg gross ≥ gross
    · rw [(hdrop hge).2]; exact hg
    · have hfee : computeFeeAmount cfg gross = rawFeeAmount cfg gross := by
        unfold computeFeeAmount
        exact if_neg hge
      unfold bankPaymentAmountOf
      rw [hfee]
      by_cases hpos : rawFeeAmount cfg gross > 0
      · rw [if_pos hpos]
        have := not_le.mp hge
        linarith
      · rw [if_neg hpos]; exact hg
  · unfold computeFeeAmount
    split
    · exact le_refl 0
    · exact hraw

/-- C5 (amended): with the dryRun flag set, migrateOrder issues no sale
create, no payment registration and no attachment against the ledger, and
leaves the remote sales and payments untouched; however, customer resolution
runs before the dry-run check, so a listCustomers read and a createCustomer
write may still be issued. -/
theorem claim_C5_amended (cfg : Config) (o : Order) (remote : RemoteState)
    (cache : Cache) :
    (migrateOrder cfg true o remote cache).1.sales = remote.sales
      ∧ (migrateOrder cfg true o remote cache).1.payments = remote.payments
      ∧ ((migrateOrder cfg true o remote cache).2.2.1.all
        (fun op => !(op.isCreateSale || op.isAddPayment || op.isAttachFile)))
          = true := by
  obtain ⟨hs, hp, htr⟩ := migrateOrder_dryRun cfg o remote cache
  refine ⟨hs, hp, ?_⟩
  rw [htr, List.all_eq_true]
  intro op hop
  rcases gcc_ops o remote cache op hop with rfl | rfl <;> rfl

/-- Concrete dry-run order: a customer e-mail unknown to the remote ledger
and one billable line. -/
def sampleDryRunOrder : Order :=
  { id := 11
    customer := some { email := some "kunde@example.com" }
    line_items := [{ price := some 1, quantity := some 1 }] }

/-- C5 (counterexample): processing sampleDryRunOrder with dryRun set against
an empty remote ledger still issues a createCustomer remote write, refuting
the claim that dry-run performs no remote write of any kind. -/
theorem claim_C5_counterexample :
    (migrateOrder {} true sampleDryRunOrder {} ([] : Cache)).2.2.1
        = [Op.listCustomers, Op.createCustomer]
      ∧ Op.createCustomer.isWrite = true := by
  exact ⟨rfl, rfl⟩

/-- C8 (counterexample): a 503 response on the first attempt, with a second
attempt that would have succeeded, still produces a single attempt and a
propagated error: the client layer does not retry transient errors. -/
theorem claim_C8_counterexample :
    (Fiken.request [Fiken.Outcome.httpError 503 none,
        Fiken.Outcome.success "ok"] "GET" "/companies/x/sales" none).attempts
        = 1
      ∧ (Fiken.request [Fiken.Outcome.httpError 503 none,
          Fiken.Outcome.success "ok"] "GET" "/companies/x/sales" none).result
        = Except.error (Fiken.FikenError.plain 503) := by
  exact ⟨rfl, rfl⟩

/-- C8 (amended): every call through FikenAPI.request performs exactly one
HTTP attempt, and the call succeeds exactly when that single attempt does:
every error, transient (network or 5xx) as well as 4xx validation, propagates
to the caller unretried. -/
theorem claim_C8_amended (remote : List Fiken.Outcome)
    (method endpoint : String) (data : Option String) :
    (Fiken.request remote method endpoint data).attempts = 1
      ∧ (Fiken.isOk (Fiken.request remote method endpoint data).result = true
        ↔ ∃ s, Fiken.clientRequest remote = Fiken.Outcome.success s) := by
  unfold Fiken.request
  cases h : Fiken.clientRequest remote with
  | success d => simp [h, Fiken.isOk]
  | httpError st body => cases body <;> simp [h, Fiken.isOk]
  | networkError => simp [h, Fiken.isOk]

/-- C9: a shipping line of price zero contributes no sale line, and
migrateOrder fails with the no-billable-lines error exactly when the order
yields no lines after filtering. -/
theorem claim_C9_zero_shipping_no_billable :
    (∀ (cfg : Config) (o : Order) (pre post : List ShippingLine)
        (z : ShippingLine), shipGrossOf z = 0 →
      buildSaleLines cfg { o with shipping_lines := pre ++ z :: post }
        = buildSaleLines cfg { o with shipping_lines := pre ++ post })
      ∧ ∀ (cfg : Config) (dr : Bool) (o : Order) (remote : RemoteState)
          (cache : Cache),
        ((migrateOrder cfg dr o remote cache).2.2.2
            = some MErr.noBillableLines
          ↔ buildSaleLines cfg o = []) := by
  constructor
  · intro cfg o pre post z hz
    unfold buildSaleLines
    simp only [List.filterMap_append, List.filterMap_cons, hz, le_refl,
      if_pos]
  · intro cfg dr o remote cache
    rw [migrateOrder_outcome]
    cases hE : buildSaleLines cfg o with
    | nil => simp
    | cons l t => simp

/-- C1: in non-dry-run mode every createSale in the trace of a run is\npreceded by
a findSale for the same business key (checkSBC), a run that finds an existing
sale issues no createSale, and an order processed twice against a ledger that
starts with no sale under its key ends with exactly one sale under that key. -/
theorem claim_C1_search_before_create_idempotent (cfg : Config) (o : Order)
    (remote : RemoteState) (cache : Cache) (r1 : RemoteState) (c1 : Cache)
    (t1 : List Op) (r2 : RemoteState) (c2 : Cache) (t2 : List Op)
    (h0 : countSales (saleNumberOf o) remote = 0)
    (h1 : migrateOrder cfg false o remote cache = (r1, c1, t1, none))
    (h2 : migrateOrder cfg false o r1 c1 = (r2, c2, t2, none)) :
    countSales (saleNumberOf o) r2 = 1
      ∧ checkSBC [] t1 = true ∧ checkSBC [] t2 = true
      ∧ (t2.all (fun op => !op.isCreateSale)) = true := by
  have ho1 := migrateOrder_outcome cfg false o remote cache
  rw [h1] at ho1
  have hl : ¬(buildSaleLines cfg o).isEmpty = true := by
    intro hemp
    rw [hemp] at ho1
    simp at ho1
  have hc1 : countSales (saleNumberOf o) r1 = 1 := by
    have h := migrateOrder_fresh_count cfg o remote cache hl h0
    rw [h1] at h
    exact h
  have hex := migrateOrder_existing cfg o r1 c1 (by rw [hc1]; norm_num)
  rw [h2] at hex
  obtain ⟨hc2, hops2⟩ := hex
  have hnc2 : ∀ op ∈ t2, op.isCreateSale = false := by
    intro op hop
    rcases hops2 op hop with rfl | rfl | rfl | ⟨sid, rfl⟩ <;> rfl
  refine ⟨by rw [hc2, hc1], ?_, ?_, ?_⟩
  · obtain ⟨ops34, sid, htr, hpay⟩ :=
      migrateOrder_fresh_trace cfg o remote cache hl h0
    rw [h1] at htr
    have htr2 : t1 = (getOrCreateCustomer o remote cache).2.2.2
        ++ [Op.findSale (saleNumberOf o)] ++ [Op.createSale (saleNumberOf o)]
        ++ ops34 ++ [Op.attachFile sid] := htr
    rw [htr2]
    simp only [List.append_assoc]
    rw [checkSBC_append_other _ (gcc_ops o remote cache)]
    simp only [List.singleton_append, checkSBC]
    rw [List.contains_cons]
    simp only [beq_self_eq_true, Bool.true_or, Bool.true_and]
    apply checkSBC_no_create
    intro op hop
    have hop2 : op ∈ ops34 ++ [Op.attachFile sid] := hop
    rcases List.mem_append.mp hop2 with h1 | h1
    · obtain ⟨acc, amt, rfl, -⟩ := hpay op h1
      rfl
    · rcases List.mem_singleton.mp h1 with rfl
      rfl
  · exact checkSBC_no_create _ hnc2 _
  · rw [List.all_eq_true]
    intro op hop
    rw [hnc2 op hop]
    rfl

/-- C7 (counterexample): an order whose reported total deviates from the
computed aggregate gross by far more than 2 minor units is still processed
to completion, and the sale is created remotely: the deviation only logs a
warning. -/
def deviantOrder : Order :=
  { id := 7
    order_number := some 3404
    total_price := some 10
    line_items := [{ price := some 1, quantity := some 1 }] }

theorem claim_C7_counterexample :
    |totalsDeviation {} deviantOrder| > 2
      ∧ (migrateOrder {} false deviantOrder {} ([] : Cache)).2.2.2 = none
      ∧ Op.createSale (saleNumberOf deviantOrder)
          ∈ (migrateOrder {} false deviantOrder {} ([] : Cache)).2.2.1 := by
  refine ⟨?_, rfl, ?_⟩
  · unfold totalsDeviation deviantOrder shopifyGrossOf calculateTotals
      buildSaleLines unitGrossOf quantityOf toNumber jsRound
    norm_num
  · obtain ⟨ops34, sid, htr, -⟩ := migrateOrder_fresh_trace {} deviantOrder {}
      ([] : Cache) (by simp [buildSaleLines, deviantOrder]) rfl
    rw [htr]
    simp

/-- C7 (amended): a deviation between the reported and the computed gross
beyond 2 minor units is not fatal: for an order with billable lines and no
existing sale under its key, migrateOrder still succeeds and a createSale is
issued. -/
theorem claim_C7_amended (cfg : Config) (o : Order) (remote : RemoteState)
    (cache : Cache) (hl : ¬(buildSaleLines cfg o).isEmpty = true)
    (h0 : countSales (saleNumberOf o) remote = 0)
    (hdev : |totalsDeviation cfg o| > 2) :
    (migrateOrder cfg false o remote cache).2.2.2 = none
      ∧ Op.createSale (saleNumberOf o)
          ∈ (migrateOrder cfg false o remote cache).2.2.1 := by
  constructor
  · rw [migrateOrder_outcome]
    simp [hl]
  · obtain ⟨ops34, sid, htr, -⟩ :=
      migrateOrder_fresh_trace cfg o remote cache hl h0
    rw [htr]
    simp

/-- C10: with no webhook secret configured (empty string), the signature
check rejects every request whatever the header, every webhook endpoint
answers 401, and the queue is never touched. -/
theorem claim_C10_empty_secret_rejects_all
    (hmac : String → List ℕ → String) (req : Server.WebhookReq)
    (payload : Server.Payload) (queue : List ℕ) :
    Server.verifyShopifySignature hmac "" req = false
      ∧ Server.ordersPaidHandler hmac "" req payload queue = (401, queue)
      ∧ Server.refundsCreateHandler hmac "" req queue = (401, queue)
      ∧ Server.ordersCancelledHandler hmac "" req queue = (401, queue) := by
  have hv : Server.verifyShopifySignature hmac "" req = false := by
    unfold Server.verifyShopifySignature
    simp
  refine ⟨hv, ?_, ?_, ?_⟩
  · unfold Server.ordersPaidHandler
    rw [hv]
    rfl
  · unfold Server.refundsCreateHandler
    rw [hv]
    rfl
  · unfold Server.ordersCancelledHandler
    rw [hv]
    rfl

/-- C4: with a configured secret and a nonempty digest, a request whose
signature header is missing or differs from the base64 HMAC of the exact raw
body is answered 401 with nothing enqueued, and a request whose header
matches the digest is answered 202 whatever the payload. -/
theorem claim_C4_webhook_auth (hmac : String → List ℕ → String)
    (secret : String) (req : Server.WebhookReq) (payload : Server.Payload)
    (queue : List ℕ) (hsecret : secret ≠ "")
    (hdigest : hmac secret req.rawBody ≠ "") :
    (req.hmacHeader ≠ some (hmac secret req.rawBody) →
      Server.ordersPaidHandler hmac secret req payload queue = (401, queue))
      ∧ (req.hmacHeader = some (hmac secret req.rawBody) →
        (Server.ordersPaidHandler hmac secret req payload queue).1 = 202) := by
  have hv : Server.verifyShopifySignature hmac secret req = true ↔
      req.hmacHeader.getD "" = hmac secret req.rawBody := by
    unfold Server.verifyShopifySignature
    rw [if_neg hsecret]
    by_cases hlen :
        (hmac secret req.rawBody).length ≠ (req.hmacHeader.getD "").length
    · rw [if_pos hlen]
      simp only [Bool.false_eq_true, false_iff]
      intro he
      exact hlen (by rw [he])
    · rw [if_neg hlen]
      simp [eq_comm]
  constructor
  · intro hne
    have hvf : Server.verifyShopifySignature hmac secret req = false := by
      cases hb : Server.verifyShopifySignature hmac secret req with
      | false => rfl
      | true =>
        exfalso
        have hgd := hv.mp hb
        cases hh : req.hmacHeader with
        | none =>
          rw [hh] at hgd
          exact hdigest hgd.symm
        | some sig =>
          rw [hh] at hgd
          exact hne (by rw [hh]; exact congrArg some hgd)
    unfold Server.ordersPaidHandler
    rw [hvf]
    simp
  · intro he
    have hvt : Server.verifyShopifySignature hmac secret req = true := by
      rw [hv, he]
      rfl
    unfold Server.ordersPaidHandler
    rw [hvt]
    cases hE : Server.extractOrderId payload <;> simp [hE]

/-- Sample digest function and requests for the webhook theorem. -/
def sampleHmac : String → List ℕ → String := fun s _ => s ++ "-digest"

/-- Request carrying the matching signature header for sampleHmac. -/
def goodReq : Server.WebhookReq :=
  { rawBody := [1, 2], hmacHeader := some "s3cret-digest" }

/-- Request with no signature header. -/
def badReq : Server.WebhookReq := { rawBody := [1, 2], hmacHeader := none }

/-- C4 (witness): the webhook theorem applied at concrete requests: the
unsigned request is answered 401 with the queue untouched and the correctly
signed request is answered 202. -/
theorem claim_C4_witness :
    Server.ordersPaidHandler sampleHmac "s3cret" badReq {} [5] = (401, [5])
      ∧ (Server.ordersPaidHandler sampleHmac "s3cret" goodReq {} [5]).1
        = 202 := by
  constructor
  · exact (claim_C4_webhook_auth sampleHmac "s3cret" badReq {} [5]
      (by decide) (by decide)).1 (by decide)
  · exact (claim_C4_webhook_auth sampleHmac "s3cret" goodReq {} [5]
      (by decide) (by decide)).2 (by decide)

/-- Round half to even, written from the words of the spec for comparison\nwith the Math.round-based computation of the source. -/
def specRoundHalfToEven (x : ℚ) : ℤ :=
  if x - ⌊x⌋ < 1/2 then ⌊x⌋
  else if 1/2 < x - ⌊x⌋ then ⌊x⌋ + 1
  else if ⌊x⌋ % 2 = 0 then ⌊x⌋ else ⌊x⌋ + 1

/-- Order and configuration hitting an exact rounding tie: one item of 4 oere
gross with a configured VAT rate of 0.6 gives a per-unit quotient of 5/2. -/
def tieOrder : Order :=
  { id := 6, line_items := [{ price := some (1/25), quantity := some 1 }] }

/-- VAT-rate configuration that produces the tie. -/
def tieCfg : Config := { vatRate := 3/5 }

/-- C6 (counterexample): at VAT rate 0.6 and a 4-oere gross line, the code
computes net 3 (Math.round of 5/2 rounds the tie up), while round-half-to-even
yields 2: the per-line rounding is not round-half-to-even. -/
theorem claim_C6_counterexample :
    ((buildSaleLines tieCfg tieOrder).map (fun l => l.netAmount)) = [3]
      ∧ specRoundHalfToEven
          ((jsRound ((1/25 : ℚ) * 100) : ℚ) / (1 + (3/5 : ℚ))) = 2
      ∧ ((3 : ℚ)) ≠ ((2 : ℤ) : ℚ) := by
  refine ⟨?_, ?_, by norm_num⟩
  · simp only [buildSaleLines, tieCfg, tieOrder, unitGrossOf, quantityOf,
      toNumber, jsRound, List.map_cons, List.map_nil, Option.getD,
      List.filterMap_nil, List.append_nil]
    norm_num
  · unfold specRoundHalfToEven jsRound
    norm_num

/-- C6 (amended): for every line, tied to its own source data, the net
amount is the per-unit gross jsRound (unitGross * 100) divided by
(1 + vatRate) and rounded with jsRound, scaled by that line's actual
quantity (quantity 1 for shipping), and the vat amount is that same per-unit
gross times the quantity minus the net; jsRound itself is round to the
nearest integer with ties toward positive infinity (JS Math.round), which is
neither a plain floor nor a plain ceil nor round-half-to-even. -/
theorem claim_C6_amended (cfg : Config) (o : Order) :
    ((buildSaleLines cfg o).map (·.netAmount)
        = o.line_items.map (fun item =>
            ((jsRound (((jsRound (unitGrossOf item * 100) : ℤ) : ℚ)
              / (1 + cfg.vatRate)) : ℤ) : ℚ) * quantityOf item)
          ++ o.shipping_lines.filterMap (fun sl =>
            if shipGrossOf sl ≤ 0 then none
            else some (((jsRound (((jsRound (shipGrossOf sl * 100) : ℤ) : ℚ)
              / (1 + cfg.vatRate)) : ℤ) : ℚ))))
      ∧ ((buildSaleLines cfg o).map (·.vatAmount)
        = o.line_items.map (fun item =>
            (((jsRound (unitGrossOf item * 100) : ℤ) : ℚ)
              - ((jsRound (((jsRound (unitGrossOf item * 100) : ℤ) : ℚ)
                / (1 + cfg.vatRate)) : ℤ) : ℚ)) * quantityOf item)
          ++ o.shipping_lines.filterMap (fun sl =>
            if shipGrossOf sl ≤ 0 then none
            else some ((((jsRound (shipGrossOf sl * 100) : ℤ) : ℚ)
              - ((jsRound (((jsRound (shipGrossOf sl * 100) : ℤ) : ℚ)
                / (1 + cfg.vatRate)) : ℤ) : ℚ)))))
      ∧ (∀ x : ℚ, (x - 1/2 : ℚ) < ((jsRound x : ℤ) : ℚ)
          ∧ ((jsRound x : ℤ) : ℚ) ≤ x + 1/2)
      ∧ ∀ n : ℤ, jsRound ((n : ℚ) + 1/2) = n + 1 := by
  refine ⟨?_, ?_, ?_, ?_⟩
  · unfold buildSaleLines
    simp only [List.map_append]
    congr 1
    · induction o.line_items with
      | nil => rfl
      | cons it t ih =>
        simp only [List.map_cons, List.map_map] at ih ⊢
        exact congrArg₂ List.cons rfl ih
    · induction o.shipping_lines with
      | nil => rfl
      | cons sl t ih =>
        simp only [List.filterMap_cons]
        by_cases hg : shipGrossOf sl ≤ 0
        · simpa [hg] using ih
        · simp only [hg, if_false, List.map_cons]
          exact congrArg₂ List.cons rfl ih
  · unfold buildSaleLines
    simp only [List.map_append]
    congr 1
    · induction o.line_items with
      | nil => rfl
      | cons it t ih =>
        simp only [List.map_cons, List.map_map] at ih ⊢
        refine congrArg₂ List.cons ?_ ih
        push_cast
        ring
    · induction o.shipping_lines with
      | nil => rfl
      | cons sl t ih =>
        simp only [List.filterMap_cons]
        by_cases hg : shipGrossOf sl ≤ 0
        · simpa [hg] using ih
        · simp only [hg, if_false, List.map_cons]
          refine congrArg₂ List.cons ?_ ih
          push_cast
          ring
  · intro x
    unfold jsRound
    constructor
    · have h := Int.lt_floor_add_one (x + 1/2)
      push_cast at h ⊢
      linarith
    · exact Int.floor_le (x + 1/2)
  · intro n
    unfold jsRound
    have h : (n : ℚ) + 1/2 + 1/2 = ((n + 1 : ℤ) : ℚ) := by
      push_cast
      ring
    rw [h, Int.floor_intCast]

/-- Order without a customer e-mail used for the concrete idempotency runs. -/
def idemOrder : Order :=
  { id := 1
    order_number := some 3403
    line_items := [{ price := some 1, quantity := some 1 }] }

/-- First concrete worker run on idemOrder against an empty remote ledger. -/
def idemRun1 : RemoteState × Cache × List Op × Option MErr :=
  migrateOrder {} false idemOrder {} ([] : Cache)

/-- Second concrete worker run on idemOrder (simulated redelivery). -/
def idemRun2 : RemoteState × Cache × List Op × Option MErr :=
  migrateOrder {} false idemOrder idemRun1.1 idemRun1.2.1

/-- C1 (witness): the idempotency theorem applied to two concrete runs of the
same order: exactly one sale remains, both traces search before create, and
the second run creates nothing. -/
theorem claim_C1_witness :
    countSales (saleNumberOf idemOrder) idemRun2.1 = 1
      ∧ checkSBC [] idemRun1.2.2.1 = true
      ∧ checkSBC [] idemRun2.2.2.1 = true
      ∧ (idemRun2.2.2.1.all (fun op => !op.isCreateSale)) = true := by
  have hne : buildSaleLines {} idemOrder ≠ [] := by
    simp [buildSaleLines, idemOrder]
  have ho1 : idemRun1.2.2.2 = none := by
    show (migrateOrder {} false idemOrder {} ([] : Cache)).2.2.2 = none
    rw [migrateOrder_outcome, if_neg (by simpa using hne)]
  have ho2 : idemRun2.2.2.2 = none := by
    show (migrateOrder {} false idemOrder idemRun1.1 idemRun1.2.1).2.2.2
      = none
    rw [migrateOrder_outcome, if_neg (by simpa using hne)]
  have h1 : migrateOrder {} false idemOrder {} ([] : Cache)
      = (idemRun1.1, idemRun1.2.1, idemRun1.2.2.1, none) := by
    rw [← ho1]
    rfl
  have h2 : migrateOrder {} false idemOrder idemRun1.1 idemRun1.2.1
      = (idemRun2.1, idemRun2.2.1, idemRun2.2.2.1, none) := by
    rw [← ho2]
    rfl
  exact claim_C1_search_before_create_idempotent {} idemOrder {} ([] : Cache)
    idemRun1.1 idemRun1.2.1 idemRun1.2.2.1
    idemRun2.1 idemRun2.2.1 idemRun2.2.2.1 rfl h1 h2

/-- Fee configuration for the C3 witness: 10 percent plus 5 oere fixed. -/
def feeCfg : Config := { feePercent := 1/10, feeAmountFixed := 5 }

/-- C3 (witness): the settlement theorem applied at gross 200 oere under
feeCfg with a concrete worker run. -/
theorem claim_C3_witness :
    (rawFeeAmount feeCfg 200 ≥ 200 → computeFeeAmount feeCfg 200 = 0 ∧
        bankPaymentAmountOf feeCfg 200 = 200)
      ∧ bankPaymentAmountOf feeCfg 200 + computeFeeAmount feeCfg 200 = 200
      ∧ 0 ≤ bankPaymentAmountOf feeCfg 200
      ∧ 0 ≤ computeFeeAmount feeCfg 200
      ∧ ((migrateOrder feeCfg false idemOrder {} ([] : Cache)).2.2.1.all
          paymentPositive) = true :=
  claim_C3_fee_settlement_split feeCfg 200 false idemOrder {} ([] : Cache)
    (by norm_num [feeCfg]) (by norm_num [feeCfg]) (by norm_num)

/-- C7 (witness): the amended deviation theorem applied to deviantOrder, a
concrete order off by 900 oere from its reported total. -/
theorem claim_C7_witness :
    (migrateOrder {} false deviantOrder {} ([] : Cache)).2.2.2 = none
      ∧ Op.createSale (saleNumberOf deviantOrder)
          ∈ (migrateOrder {} false deviantOrder {} ([] : Cache)).2.2.1 :=
  claim_C7_amended {} deviantOrder {} ([] : Cache)
    (by simp [buildSaleLines, deviantOrder]) rfl
    (by
      unfold totalsDeviation deviantOrder shopifyGrossOf calculateTotals
        buildSaleLines unitGrossOf quantityOf toNumber jsRound
      norm_num)

/-- Shipping line with price zero for the C9 witness. -/
def zeroShip : ShippingLine := { price := some 0 }

/-- Order with no billable content for the C9 witness. -/
def bareOrder : Order := { id := 90 }

/-- C9 (witness): the zero-shipping and no-billable-lines theorem applied at
concrete inputs. -/
theorem claim_C9_witness :
    (buildSaleLines {} { bareOrder with shipping_lines := [] ++ zeroShip :: [] }
        = buildSaleLines {} { bareOrder with shipping_lines := ([] ++ []) })
      ∧ ((migrateOrder {} false bareOrder {} ([] : Cache)).2.2.2
          = some MErr.noBillableLines
        ↔ buildSaleLines {} bareOrder = []) :=
  ⟨claim_C9_zero_shipping_no_billable.1 {} bareOrder [] [] zeroShip rfl,
    claim_C9_zero_shipping_no_billable.2 {} false bareOrder {} ([] : Cache)⟩

end ClaimTheorems
